import Mathlib

/-!
Verification of the Order-and-Inventory Management backend
(`src/backend/src/main.py`, seeded by `src/backend/src/init_db.py`).

The store is modelled as three lists (products, inventory, orders), mirroring
the three SQLAlchemy tables.  Each endpoint body is translated into a pure
function returning `Except ApiError ...`: raising an `HTTPException` becomes
returning `.error`, and committing the session becomes returning the updated
store.  `db.query(T).filter(cond).first()` becomes a find-first lookup, and an
in-place mutation of the found row becomes an update of the first matching
element of the list.  Quantities and ids are Python `int`s, so they are
modelled as `Int`; prices are only ever copied, never computed with, so the
float prices are carried as exact rationals; the `datetime` timestamps and the
uuid-derived order ids are external inputs to the handlers, so they are passed
in as explicit parameters (`now : Nat`, `order_id : String`).
-/

/-- Catalog entry, from `ProductDB` in main.py. -/
structure Product where
  id : Int
  name : String
  price : Rat
  description : Option String
deriving DecidableEq

/-- Per-product stock record, from `InventoryDB` in main.py. -/
structure InventoryRecord where
  id : Int
  productId : Int
  productName : String
  quantity : Int
  price : Rat
deriving DecidableEq

/-- Order lifecycle status, from `OrderStatusEnum` in main.py. -/
inductive OrderStatus where
  | pending
  | processing
  | shipped
  | delivered
deriving DecidableEq

/-- A persisted order row, from `OrderDB` in main.py. -/
structure Order where
  id : String
  customerName : String
  customerEmail : String
  productId : Int
  productName : String
  quantity : Int
  status : OrderStatus
  createdAt : Nat
  updatedAt : Nat
deriving DecidableEq

/-- Order-creation request body, from the `OrderCreate` pydantic model. -/
structure OrderCreate where
  customerName : String
  customerEmail : String
  productId : Int
  quantity : Int
deriving DecidableEq

/-- The relational store: the three tables of main.py. -/
structure Store where
  products : List Product
  inventory : List InventoryRecord
  orders : List Order
deriving DecidableEq

/-- The failures raised by the handlers, with the data each one carries. -/
inductive ApiError where
  | notFoundProduct (pid : Int)
  | notFoundInventory (pid : Int)
  | notFoundOrder (oid : String)
  | insufficientInventory (available requested : Int)
  | invalidInput (email : String)
deriving DecidableEq

/-- The human-readable detail string attached to each failure in main.py. -/
def ApiError.detail : ApiError → String
  | .notFoundProduct pid => "Product with id " ++ toString pid ++ " not found"
  | .notFoundInventory pid => "Inventory not found for product " ++ toString pid
  | .notFoundOrder oid => "Order with id " ++ oid ++ " not found"
  | .insufficientInventory a r =>
      "Insufficient inventory. Available: " ++ toString a ++ ", Requested: " ++ toString r
  | .invalidInput email =>
      "value is not a valid email address: " ++ email

/-- `db.query(ProductDB).filter(ProductDB.id == pid).first()`. -/
def lookupProduct : List Product → Int → Option Product
  | [], _ => none
  | p :: ps, pid => if p.id = pid then some p else lookupProduct ps pid

/-- `db.query(InventoryDB).filter(InventoryDB.product_id == pid).first()`. -/
def lookupInv : List InventoryRecord → Int → Option InventoryRecord
  | [], _ => none
  | r :: rs, pid => if r.productId = pid then some r else lookupInv rs pid

/-- `db.query(OrderDB).filter(OrderDB.id == oid).first()`. -/
def findOrder : List Order → String → Option Order
  | [], _ => none
  | o :: os, oid => if o.id = oid then some o else findOrder os oid

/-- In-place mutation of the quantity of the first inventory row matching
`pid` (the row returned by the find-first query). -/
def updateInvQty : List InventoryRecord → Int → (Int → Int) → List InventoryRecord
  | [], _, _ => []
  | r :: rs, pid, f =>
    if r.productId = pid then { r with quantity := f r.quantity } :: rs
    else r :: updateInvQty rs pid f

/-- In-place replacement of the first order row whose id matches `oid`. -/
def updateFirstOrder : List Order → String → Order → List Order
  | [], _, _ => []
  | o :: os, oid, o' => if o.id = oid then o' :: os else o :: updateFirstOrder os oid o'

/-- `db.delete(order)`: removal of the first order row whose id matches. -/
def eraseFirstOrder : List Order → String → List Order
  | [], _ => []
  | o :: os, oid => if o.id = oid then os else o :: eraseFirstOrder os oid

/-- The quantity held by the inventory row for `pid`, when one exists. -/
def invQty? (s : Store) (pid : Int) : Option Int :=
  (lookupInv s.inventory pid).map (fun r => r.quantity)

/-- Sum of the quantities of the currently existing orders for `pid`. -/
def ordersSum : List Order → Int → Int
  | [], _ => 0
  | o :: os, pid => (if o.productId = pid then o.quantity else 0) + ordersSum os pid

/-- `create_order` (main.py lines 207-267).  The generated order id and the
`datetime.now()` timestamp are inputs.  Mirrors the handler body: product
lookup, inventory lookup, availability check, then the new order row is added
and the inventory row decremented, both committed together. -/
def create_order (req : OrderCreate) (order_id : String) (now : Nat) (db : Store) :
    Except ApiError (Store × Order) :=
  match lookupProduct db.products req.productId with
  | none => .error (.notFoundProduct req.productId)
  | some product =>
    match lookupInv db.inventory req.productId with
    | none => .error (.notFoundInventory req.productId)
    | some inventory =>
      if inventory.quantity < req.quantity then
        .error (.insufficientInventory inventory.quantity req.quantity)
      else
        let new_order : Order :=
          { id := order_id
            customerName := req.customerName
            customerEmail := req.customerEmail
            productId := req.productId
            productName := product.name
            quantity := req.quantity
            status := .pending
            createdAt := now
            updatedAt := now }
        .ok ({ db with
                orders := db.orders ++ [new_order]
                inventory := updateInvQty db.inventory req.productId
                  (fun q => q - req.quantity) },
             new_order)

/-- Modelled from the spec: pydantic's `EmailStr` validation (declared on
`OrderCreate.customerEmail` in main.py line 82, but implemented by the
framework outside this repository) — "customerEmail is a syntactically valid
email address": exactly one `@` separating a nonempty local part from a
nonempty domain that contains a dot. -/
def validEmail (s : String) : Bool :=
  let cs := s.toList
  let i := cs.indexOf '@'
  cs.count '@' == 1 && decide (0 < i) && decide (i + 1 < cs.length) &&
    (cs.drop (i + 1)).contains '.'

/-- The `/orders` POST endpoint as the caller sees it: request validation of
the email (rejecting with `InvalidInput`) in front of the handler body. -/
def create_order_endpoint (req : OrderCreate) (order_id : String) (now : Nat)
    (db : Store) : Except ApiError (Store × Order) :=
  if validEmail req.customerEmail then create_order req order_id now db
  else .error (.invalidInput req.customerEmail)

/-- `update_order_status` (main.py lines 310-343): find the order, set its
status unconditionally, stamp `updated_at = now`, commit, return it. -/
def update_order_status (order_id : String) (new_status : OrderStatus) (now : Nat)
    (db : Store) : Except ApiError (Store × Order) :=
  match findOrder db.orders order_id with
  | none => .error (.notFoundOrder order_id)
  | some order =>
    let order' := { order with status := new_status, updatedAt := now }
    .ok ({ db with orders := updateFirstOrder db.orders order_id order' }, order')

/-- `cancel_order` (main.py lines 345-364): find the order, restore the
inventory row when one exists for its product (silently skip otherwise),
delete the order row, commit. -/
def cancel_order (order_id : String) (db : Store) : Except ApiError Store :=
  match findOrder db.orders order_id with
  | none => .error (.notFoundOrder order_id)
  | some order =>
    let inventory' :=
      match lookupInv db.inventory order.productId with
      | some _ => updateInvQty db.inventory order.productId (fun q => q + order.quantity)
      | none => db.inventory
    .ok { db with
           inventory := inventory'
           orders := eraseFirstOrder db.orders order_id }

/-- One client-visible mutating call, with its external inputs (generated
order id, clock reading). -/
inductive Op where
  | create (req : OrderCreate) (oid : String) (now : Nat)
  | updateStatus (oid : String) (st : OrderStatus) (now : Nat)
  | cancel (oid : String)
deriving DecidableEq

/-- The store after one call: on failure the transaction rolls back and the
store is unchanged. -/
def applyOp (op : Op) (db : Store) : Store :=
  match op with
  | .create req oid now =>
    match create_order req oid now db with
    | .ok (db', _) => db'
    | .error _ => db
  | .updateStatus oid st now =>
    match update_order_status oid st now db with
    | .ok (db', _) => db'
    | .error _ => db
  | .cancel oid =>
    match cancel_order oid db with
    | .ok db' => db'
    | .error _ => db

/-- The store after a sequence of calls. -/
def run (ops : List Op) (db : Store) : Store :=
  ops.foldl (fun s op => applyOp op s) db

/-- The seeded database of `init_db.py`: 5 products and their matching
inventory rows, no orders. -/
def seededStore : Store :=
  { products :=
      [ { id := 1, name := "Laptop", price := (99999 : Rat) / 100,
          description := some "High-performance laptop" },
        { id := 2, name := "Mouse", price := (2999 : Rat) / 100,
          description := some "Wireless ergonomic mouse" },
        { id := 3, name := "Keyboard", price := (7999 : Rat) / 100,
          description := some "Mechanical keyboard" },
        { id := 4, name := "Monitor", price := (29999 : Rat) / 100,
          description := some "27-inch 4K monitor" },
        { id := 5, name := "Headphones", price := (14999 : Rat) / 100,
          description := some "Noise-cancelling headphones" } ]
    inventory :=
      [ { id := 1, productId := 1, productName := "Laptop", quantity := 45,
          price := (99999 : Rat) / 100 },
        { id := 2, productId := 2, productName := "Mouse", quantity := 150,
          price := (2999 : Rat) / 100 },
        { id := 3, productId := 3, productName := "Keyboard", quantity := 8,
          price := (7999 : Rat) / 100 },
        { id := 4, productId := 4, productName := "Monitor", quantity := 30,
          price := (29999 : Rat) / 100 },
        { id := 5, productId := 5, productName := "Headphones", quantity := 67,
          price := (14999 : Rat) / 100 } ]
    orders := [] }

/-! ### Lemmas about the find-first lookups and in-place updates -/

theorem lookupProduct_mem {ps : List Product} {pid : Int} {p : Product}
    (h : lookupProduct ps pid = some p) : p ∈ ps ∧ p.id = pid := by
  induction ps with
  | nil => simp [lookupProduct] at h
  | cons q qs ih =>
    rw [lookupProduct] at h
    split at h
    · cases h
      exact ⟨List.mem_cons_self .., by assumption⟩
    · rcases ih h with ⟨h1, h2⟩
      exact ⟨List.mem_cons_of_mem _ h1, h2⟩

theorem lookupInv_mem {rs : List InventoryRecord} {pid : Int} {r : InventoryRecord}
    (h : lookupInv rs pid = some r) : r ∈ rs ∧ r.productId = pid := by
  induction rs with
  | nil => simp [lookupInv] at h
  | cons x xs ih =>
    rw [lookupInv] at h
    split at h
    · cases h
      exact ⟨List.mem_cons_self .., by assumption⟩
    · rcases ih h with ⟨h1, h2⟩
      exact ⟨List.mem_cons_of_mem _ h1, h2⟩

theorem findOrder_mem {os : List Order} {oid : String} {o : Order}
    (h : findOrder os oid = some o) : o ∈ os ∧ o.id = oid := by
  induction os with
  | nil => simp [findOrder] at h
  | cons x xs ih =>
    rw [findOrder] at h
    split at h
    · cases h
      exact ⟨List.mem_cons_self .., by assumption⟩
    · rcases ih h with ⟨h1, h2⟩
      exact ⟨List.mem_cons_of_mem _ h1, h2⟩

theorem findOrder_eq_none {os : List Order} {oid : String}
    (h : ∀ o ∈ os, o.id ≠ oid) : findOrder os oid = none := by
  induction os with
  | nil => rfl
  | cons x xs ih =>
    rw [findOrder]
    rw [if_neg (h x (List.mem_cons_self ..))]
    exact ih (fun o ho => h o (List.mem_cons_of_mem _ ho))

theorem lookupInv_updateInvQty_self (rs : List InventoryRecord) (pid : Int) (f : Int → Int) :
    lookupInv (updateInvQty rs pid f) pid =
      (lookupInv rs pid).map (fun r => { r with quantity := f r.quantity }) := by
  induction rs with
  | nil => rfl
  | cons x xs ih =>
    rw [lookupInv, updateInvQty]
    by_cases hx : x.productId = pid
    · rw [if_pos hx, lookupInv, if_pos hx, if_pos hx]
      rfl
    · rw [if_neg hx, lookupInv, if_neg hx, if_neg hx, ih]

theorem lookupInv_updateInvQty_ne (rs : List InventoryRecord) {pid pid' : Int} (f : Int → Int)
    (h : pid' ≠ pid) :
    lookupInv (updateInvQty rs pid f) pid' = lookupInv rs pid' := by
  induction rs with
  | nil => rfl
  | cons x xs ih =>
    rw [updateInvQty]
    by_cases hx : x.productId = pid
    · rw [if_pos hx, lookupInv, lookupInv]
      rw [if_neg (by simpa [hx] using h.symm), if_neg (by simpa [hx] using h.symm)]
    · rw [if_neg hx, lookupInv, lookupInv, ih]

theorem lookupInv_updateInvQty_isSome (rs : List InventoryRecord) (pid pid' : Int)
    (f : Int → Int) :
    (lookupInv (updateInvQty rs pid f) pid').isSome = (lookupInv rs pid').isSome := by
  by_cases h : pid' = pid
  · subst h
    rw [lookupInv_updateInvQty_self]
    cases hl : lookupInv rs pid' <;> simp [hl]
  · rw [lookupInv_updateInvQty_ne rs f h]

theorem mem_updateInvQty {rs : List InventoryRecord} {pid : Int} {f : Int → Int}
    {x : InventoryRecord} (h : x ∈ updateInvQty rs pid f) :
    x ∈ rs ∨ ∃ r, lookupInv rs pid = some r ∧ x = { r with quantity := f r.quantity } := by
  induction rs with
  | nil => simp [updateInvQty] at h
  | cons y ys ih =>
    rw [updateInvQty] at h
    by_cases hy : y.productId = pid
    · rw [if_pos hy] at h
      rcases List.mem_cons.mp h with h1 | h1
      · exact Or.inr ⟨y, by rw [lookupInv, if_pos hy], h1⟩
      · exact Or.inl (List.mem_cons_of_mem _ h1)
    · rw [if_neg hy] at h
      rcases List.mem_cons.mp h with h1 | h1
      · exact Or.inl (h1 ▸ List.mem_cons_self ..)
      · rcases ih h1 with h2 | ⟨r, hr, hx⟩
        · exact Or.inl (List.mem_cons_of_mem _ h2)
        · exact Or.inr ⟨r, by rw [lookupInv, if_neg hy]; exact hr, hx⟩

theorem ordersSum_append (xs ys : List Order) (pid : Int) :
    ordersSum (xs ++ ys) pid = ordersSum xs pid + ordersSum ys pid := by
  induction xs with
  | nil => simp [ordersSum]
  | cons x xs ih =>
    rw [List.cons_append, ordersSum, ordersSum, ih, add_assoc]

theorem ordersSum_eraseFirstOrder {os : List Order} {oid : String} {o : Order}
    (h : findOrder os oid = some o) (pid : Int) :
    ordersSum (eraseFirstOrder os oid) pid =
      ordersSum os pid - (if o.productId = pid then o.quantity else 0) := by
  induction os with
  | nil => simp [findOrder] at h
  | cons x xs ih =>
    rw [findOrder] at h
    rw [eraseFirstOrder]
    split at h
    · cases h
      rw [if_pos (by assumption), ordersSum]
      ring
    · rw [if_neg (by assumption), ordersSum, ordersSum, ih h]
      ring

theorem ordersSum_updateFirstOrder {os : List Order} {oid : String} {o o' : Order}
    (h : findOrder os oid = some o) (hp : o'.productId = o.productId)
    (hq : o'.quantity = o.quantity) (pid : Int) :
    ordersSum (updateFirstOrder os oid o') pid = ordersSum os pid := by
  induction os with
  | nil => simp [findOrder] at h
  | cons x xs ih =>
    rw [findOrder] at h
    rw [updateFirstOrder]
    split at h
    · cases h
      rw [if_pos (by assumption), ordersSum, ordersSum, hp, hq]
    · rw [if_neg (by assumption), ordersSum, ordersSum, ih h]

theorem mem_eraseFirstOrder {os : List Order} {oid : String} {o : Order}
    (h : o ∈ eraseFirstOrder os oid) : o ∈ os := by
  induction os with
  | nil => simp [eraseFirstOrder] at h
  | cons x xs ih =>
    rw [eraseFirstOrder] at h
    split at h
    · exact List.mem_cons_of_mem _ h
    · rcases List.mem_cons.mp h with h1 | h1
      · exact h1 ▸ List.mem_cons_self ..
      · exact List.mem_cons_of_mem _ (ih h1)

theorem mem_updateFirstOrder {os : List Order} {oid : String} {o' x : Order}
    (h : x ∈ updateFirstOrder os oid o') : x = o' ∨ x ∈ os := by
  induction os with
  | nil => simp [updateFirstOrder] at h
  | cons y ys ih =>
    rw [updateFirstOrder] at h
    split at h
    · rcases List.mem_cons.mp h with h1 | h1
      · exact Or.inl h1
      · exact Or.inr (List.mem_cons_of_mem _ h1)
    · rcases List.mem_cons.mp h with h1 | h1
      · exact Or.inr (h1 ▸ List.mem_cons_self ..)
      · rcases ih h1 with h2 | h2
        · exact Or.inl h2
        · exact Or.inr (List.mem_cons_of_mem _ h2)

theorem mem_updateFirstOrder_of_ne {os : List Order} {oid : String} {o' x : Order}
    (hx : x ∈ os) (hne : x.id ≠ oid) : x ∈ updateFirstOrder os oid o' := by
  induction os with
  | nil => simp at hx
  | cons y ys ih =>
    rw [updateFirstOrder]
    rcases List.mem_cons.mp hx with h1 | h1
    · subst h1
      rw [if_neg hne]
      exact List.mem_cons_self ..
    · split
      · exact List.mem_cons_of_mem _ h1
      · exact List.mem_cons_of_mem _ (ih h1)

theorem length_updateFirstOrder (os : List Order) (oid : String) (o' : Order) :
    (updateFirstOrder os oid o').length = os.length := by
  induction os with
  | nil => rfl
  | cons y ys ih =>
    rw [updateFirstOrder]
    split
    · simp
    · simp [ih]

theorem findOrder_updateFirstOrder_self {os : List Order} {oid : String} {o o' : Order}
    (h : findOrder os oid = some o) (hid : o'.id = oid) :
    findOrder (updateFirstOrder os oid o') oid = some o' := by
  induction os with
  | nil => simp [findOrder] at h
  | cons x xs ih =>
    rw [findOrder] at h
    rw [updateFirstOrder]
    split at h
    · rw [if_pos (by assumption), findOrder, if_pos hid]
    · rw [if_neg (by assumption), findOrder, if_neg (by assumption)]
      exact ih h

theorem updateFirstOrder_updateFirstOrder {os : List Order} {oid : String} {x y : Order}
    (hx : x.id = oid) :
    updateFirstOrder (updateFirstOrder os oid x) oid y = updateFirstOrder os oid y := by
  induction os with
  | nil => rfl
  | cons z zs ih =>
    rw [updateFirstOrder]
    split
    · rw [updateFirstOrder, if_pos hx, updateFirstOrder, if_pos (by assumption)]
    · rw [updateFirstOrder, if_neg (by assumption), updateFirstOrder,
        if_neg (by assumption), ih]

/-! ### Reachability invariants -/

/-- The global ledger invariant of the spec, relative to a seed store `s0`:
the inventory row for every product holds its seeded quantity minus the sum of
the quantities of the currently existing orders for that product. -/
def ledgerInvariant (s0 s : Store) : Prop :=
  ∀ pid : Int,
    invQty? s pid = (invQty? s0 pid).map (fun q0 => q0 - ordersSum s.orders pid)

/-- Every existing order references a product that still has an inventory
row (true in every reachable state: orders are only created after a
successful inventory lookup, and inventory rows are never deleted). -/
def ordersBacked (s : Store) : Prop :=
  ∀ o ∈ s.orders, (lookupInv s.inventory o.productId).isSome = true

theorem run_cons (op : Op) (ops : List Op) (s : Store) :
    run (op :: ops) s = run ops (applyOp op s) := rfl

theorem ledger_step (s0 s : Store) (op : Op)
    (h1 : ledgerInvariant s0 s) (h2 : ordersBacked s) :
    ledgerInvariant s0 (applyOp op s) ∧ ordersBacked (applyOp op s) := by
  cases op with
  | create req oid now =>
    cases hp : lookupProduct s.products req.productId with
    | none =>
      simp only [applyOp, create_order, hp]
      exact ⟨h1, h2⟩
    | some p =>
      cases hi : lookupInv s.inventory req.productId with
      | none =>
        simp only [applyOp, create_order, hp, hi]
        exact ⟨h1, h2⟩
      | some inv =>
        by_cases hlt : inv.quantity < req.quantity
        · simp only [applyOp, create_order, hp, hi, if_pos hlt]
          exact ⟨h1, h2⟩
        · simp only [applyOp, create_order, hp, hi, if_neg hlt]
          constructor
          · intro pid
            by_cases hpid : pid = req.productId
            · subst hpid
              have hsum : ordersSum (s.orders ++
                  [{ id := oid, customerName := req.customerName,
                     customerEmail := req.customerEmail, productId := req.productId,
                     productName := p.name, quantity := req.quantity,
                     status := .pending, createdAt := now, updatedAt := now }])
                    req.productId =
                  ordersSum s.orders req.productId + req.quantity := by
                rw [ordersSum_append, ordersSum, ordersSum, if_pos rfl, add_zero]
              have hl := lookupInv_updateInvQty_self s.inventory req.productId
                (fun q => q - req.quantity)
              have h1p := h1 req.productId
              cases hq0 : lookupInv s0.inventory req.productId with
              | none =>
                simp only [invQty?, hq0, hi, Option.map_some', Option.map_none'] at h1p
                exact (Option.some_ne_none _ h1p).elim
              | some r0 =>
                simp only [invQty?, hq0, hi, Option.map_some'] at h1p
                have heq : inv.quantity = r0.quantity - ordersSum s.orders req.productId :=
                  Option.some.inj h1p
                simp only [invQty?, hsum, hl, hi, hq0, Option.map_some',
                  Option.some.injEq]
                omega
            · have hsum : ordersSum (s.orders ++
                  [{ id := oid, customerName := req.customerName,
                     customerEmail := req.customerEmail, productId := req.productId,
                     productName := p.name, quantity := req.quantity,
                     status := .pending, createdAt := now, updatedAt := now }]) pid =
                  ordersSum s.orders pid := by
                rw [ordersSum_append, ordersSum, ordersSum,
                  if_neg (Ne.symm hpid), add_zero, add_zero]
              have hl := lookupInv_updateInvQty_ne s.inventory
                (fun q => q - req.quantity) hpid
              have h1p := h1 pid
              simp only [invQty?] at h1p
              simp only [invQty?, hsum, hl]
              exact h1p
          · intro o ho
            rcases List.mem_append.mp ho with ho1 | ho1
            · rw [lookupInv_updateInvQty_isSome]
              exact h2 o ho1
            · have hpe : o.productId = req.productId := by
                cases List.mem_singleton.mp ho1
                rfl
              rw [hpe, lookupInv_updateInvQty_isSome, hi]
              rfl
  | updateStatus oid st now =>
    cases hf : findOrder s.orders oid with
    | none =>
      simp only [applyOp, update_order_status, hf]
      exact ⟨h1, h2⟩
    | some o =>
      simp only [applyOp, update_order_status, hf]
      constructor
      · intro pid
        have hsum := @ordersSum_updateFirstOrder s.orders oid o
          { o with status := st, updatedAt := now } hf rfl rfl pid
        simp only [invQty?, hsum]
        exact h1 pid
      · intro x hx
        rcases mem_updateFirstOrder hx with h3 | h3
        · subst h3
          exact h2 o (findOrder_mem hf).1
        · exact h2 x h3
  | cancel oid =>
    cases hf : findOrder s.orders oid with
    | none =>
      simp only [applyOp, cancel_order, hf]
      exact ⟨h1, h2⟩
    | some o =>
      have hmem := (findOrder_mem hf).1
      have hback := h2 o hmem
      cases hi : lookupInv s.inventory o.productId with
      | none => rw [hi] at hback; simp at hback
      | some r =>
        simp only [applyOp, cancel_order, hf, hi]
        constructor
        · intro pid
          by_cases hpid : pid = o.productId
          · subst hpid
            have hsum : ordersSum (eraseFirstOrder s.orders oid) o.productId =
                ordersSum s.orders o.productId - o.quantity := by
              rw [ordersSum_eraseFirstOrder hf, if_pos rfl]
            have hl := lookupInv_updateInvQty_self s.inventory o.productId
              (fun q => q + o.quantity)
            have h1p := h1 o.productId
            cases hq0 : lookupInv s0.inventory o.productId with
            | none =>
              simp only [invQty?, hq0, hi, Option.map_some', Option.map_none'] at h1p
              exact (Option.some_ne_none _ h1p).elim
            | some r0 =>
              simp only [invQty?, hq0, hi, Option.map_some'] at h1p
              have heq : r.quantity = r0.quantity - ordersSum s.orders o.productId :=
                Option.some.inj h1p
              simp only [invQty?, hsum, hl, hi, hq0, Option.map_some',
                Option.some.injEq]
              omega
          · have hsum : ordersSum (eraseFirstOrder s.orders oid) pid =
                ordersSum s.orders pid := by
              rw [ordersSum_eraseFirstOrder hf, if_neg (Ne.symm hpid), sub_zero]
            have hl := lookupInv_updateInvQty_ne s.inventory
              (fun q => q + o.quantity) hpid
            have h1p := h1 pid
            simp only [invQty?] at h1p
            simp only [invQty?, hsum, hl]
            exact h1p
        · intro x hx
          rw [lookupInv_updateInvQty_isSome]
          exact h2 x (mem_eraseFirstOrder hx)

theorem ledger_run (s0 : Store) (ops : List Op) (s : Store)
    (h1 : ledgerInvariant s0 s) (h2 : ordersBacked s) :
    ledgerInvariant s0 (run ops s) ∧ ordersBacked (run ops s) := by
  induction ops generalizing s with
  | nil => exact ⟨h1, h2⟩
  | cons op ops ih =>
    rw [run_cons]
    have := ledger_step s0 s op h1 h2
    exact ih (applyOp op s) this.1 this.2

/-- An operation whose request passes the positivity requirement §3 puts on
order quantities (`quantity` a positive integer); status updates and
cancellations carry no quantity. -/
def posOp : Op → Bool
  | .create req _ _ => decide (0 < req.quantity)
  | .updateStatus _ _ _ => true
  | .cancel _ => true

/-- All inventory rows non-negative. -/
def invNonneg (s : Store) : Prop := ∀ r ∈ s.inventory, 0 ≤ r.quantity

/-- All existing orders have positive quantity. -/
def ordersPos (s : Store) : Prop := ∀ o ∈ s.orders, 0 < o.quantity

theorem nonneg_step (s : Store) (op : Op) (hop : posOp op = true)
    (h1 : invNonneg s) (h2 : ordersPos s) :
    invNonneg (applyOp op s) ∧ ordersPos (applyOp op s) := by
  cases op with
  | create req oid now =>
    have hq : 0 < req.quantity := by
      simpa [posOp] using hop
    cases hp : lookupProduct s.products req.productId with
    | none =>
      simp only [applyOp, create_order, hp]
      exact ⟨h1, h2⟩
    | some p =>
      cases hi : lookupInv s.inventory req.productId with
      | none =>
        simp only [applyOp, create_order, hp, hi]
        exact ⟨h1, h2⟩
      | some inv =>
        by_cases hlt : inv.quantity < req.quantity
        · simp only [applyOp, create_order, hp, hi, if_pos hlt]
          exact ⟨h1, h2⟩
        · simp only [applyOp, create_order, hp, hi, if_neg hlt]
          constructor
          · intro x hx
            rcases mem_updateInvQty hx with h3 | ⟨r, hr, hx'⟩
            · exact h1 x h3
            · rw [hi] at hr
              cases hr
              subst hx'
              have := h1 inv (lookupInv_mem hi).1
              simp only
              omega
          · intro o ho
            rcases List.mem_append.mp ho with ho1 | ho1
            · exact h2 o ho1
            · cases List.mem_singleton.mp ho1
              exact hq
  | updateStatus oid st now =>
    cases hf : findOrder s.orders oid with
    | none =>
      simp only [applyOp, update_order_status, hf]
      exact ⟨h1, h2⟩
    | some o =>
      simp only [applyOp, update_order_status, hf]
      refine ⟨h1, ?_⟩
      intro x hx
      rcases mem_updateFirstOrder hx with h3 | h3
      · subst h3
        exact h2 o (findOrder_mem hf).1
      · exact h2 x h3
  | cancel oid =>
    cases hf : findOrder s.orders oid with
    | none =>
      simp only [applyOp, cancel_order, hf]
      exact ⟨h1, h2⟩
    | some o =>
      have hqo : 0 < o.quantity := h2 o (findOrder_mem hf).1
      cases hi : lookupInv s.inventory o.productId with
      | none =>
        simp only [applyOp, cancel_order, hf, hi]
        refine ⟨h1, ?_⟩
        intro x hx
        exact h2 x (mem_eraseFirstOrder hx)
      | some r =>
        simp only [applyOp, cancel_order, hf, hi]
        constructor
        · intro x hx
          rcases mem_updateInvQty hx with h3 | ⟨r', hr', hx'⟩
          · exact h1 x h3
          · rw [hi] at hr'
            cases hr'
            subst hx'
            have := h1 r (lookupInv_mem hi).1
            simp only
            omega
        · intro x hx
          exact h2 x (mem_eraseFirstOrder hx)

theorem nonneg_run (ops : List Op) (s : Store)
    (hop : ∀ op ∈ ops, posOp op = true)
    (h1 : invNonneg s) (h2 : ordersPos s) :
    invNonneg (run ops s) ∧ ordersPos (run ops s) := by
  induction ops generalizing s with
  | nil => exact ⟨h1, h2⟩
  | cons op ops ih =>
    rw [run_cons]
    have hstep := nonneg_step s op (hop op (List.mem_cons_self ..)) h1 h2
    exact ih (applyOp op s) (fun x hx => hop x (List.mem_cons_of_mem _ hx))
      hstep.1 hstep.2

/-! ### Claim theorems -/

/-- C2: when the product and its inventory row exist and the requested
quantity strictly exceeds the current inventory quantity, `create_order`
fails with `InsufficientInventory` reporting both the available and the
requested quantity, its detail message names both values, and the whole
store is unchanged. -/
theorem create_order_insufficient_inventory (db : Store) (req : OrderCreate)
    (oid : String) (now : Nat) (p : Product) (inv : InventoryRecord)
    (hp : lookupProduct db.products req.productId = some p)
    (hi : lookupInv db.inventory req.productId = some inv)
    (hlt : inv.quantity < req.quantity) :
    create_order req oid now db =
      .error (.insufficientInventory inv.quantity req.quantity) ∧
    (ApiError.insufficientInventory inv.quantity req.quantity).detail =
      "Insufficient inventory. Available: " ++ toString inv.quantity ++
        ", Requested: " ++ toString req.quantity ∧
    applyOp (.create req oid now) db = db := by
  have herr : create_order req oid now db =
      .error (.insufficientInventory inv.quantity req.quantity) := by
    simp only [create_order, hp, hi, if_pos hlt]
  refine ⟨herr, rfl, ?_⟩
  simp only [applyOp, herr]

theorem create_order_insufficient_inventory_witness :
    create_order { customerName := "Ada", customerEmail := "ada@example.com",
                   productId := 1, quantity := 46 } "ORD-00000001" 5 seededStore =
      .error (.insufficientInventory 45 46) ∧
    (ApiError.insufficientInventory 45 46).detail =
      "Insufficient inventory. Available: " ++ toString (45 : Int) ++
        ", Requested: " ++ toString (46 : Int) ∧
    applyOp (.create { customerName := "Ada", customerEmail := "ada@example.com",
                       productId := 1, quantity := 46 } "ORD-00000001" 5)
      seededStore = seededStore :=
  create_order_insufficient_inventory seededStore
    { customerName := "Ada", customerEmail := "ada@example.com",
      productId := 1, quantity := 46 } "ORD-00000001" 5
    { id := 1, name := "Laptop", price := (99999 : Rat) / 100,
      description := some "High-performance laptop" }
    { id := 1, productId := 1, productName := "Laptop", quantity := 45,
      price := (99999 : Rat) / 100 }
    (by rfl) (by rfl) (by decide)

/-- C5: a successful `create_order` returns the order with every submitted
field unchanged, the given server-assigned id, the catalog product's name,
status `Pending`, equal creation and update timestamps, and decrements the
product's inventory quantity by exactly the requested quantity. -/
theorem create_order_roundtrip (db : Store) (req : OrderCreate) (oid : String)
    (now : Nat) (p : Product) (inv : InventoryRecord)
    (hp : lookupProduct db.products req.productId = some p)
    (hi : lookupInv db.inventory req.productId = some inv)
    (hge : req.quantity ≤ inv.quantity) :
    ∃ db' : Store,
      create_order req oid now db =
        .ok (db', { id := oid, customerName := req.customerName,
                    customerEmail := req.customerEmail, productId := req.productId,
                    productName := p.name, quantity := req.quantity,
                    status := .pending, createdAt := now, updatedAt := now }) ∧
      db'.orders = db.orders ++
        [{ id := oid, customerName := req.customerName,
           customerEmail := req.customerEmail, productId := req.productId,
           productName := p.name, quantity := req.quantity,
           status := .pending, createdAt := now, updatedAt := now }] ∧
      invQty? db' req.productId = some (inv.quantity - req.quantity) := by
  refine ⟨{ db with
            orders := db.orders ++
              [{ id := oid, customerName := req.customerName,
                 customerEmail := req.customerEmail, productId := req.productId,
                 productName := p.name, quantity := req.quantity,
                 status := .pending, createdAt := now, updatedAt := now }]
            inventory := updateInvQty db.inventory req.productId
              (fun q => q - req.quantity) }, ?_, rfl, ?_⟩
  · simp only [create_order, hp, hi, if_neg (not_lt.mpr hge)]
  · simp only [invQty?, lookupInv_updateInvQty_self, hi, Option.map_some']

theorem create_order_roundtrip_witness :
    ∃ db' : Store,
      create_order { customerName := "Ada", customerEmail := "ada@example.com",
                     productId := 3, quantity := 5 } "ORD-00000002" 9 seededStore =
        .ok (db', { id := "ORD-00000002", customerName := "Ada",
                    customerEmail := "ada@example.com", productId := 3,
                    productName := "Keyboard", quantity := 5,
                    status := .pending, createdAt := 9, updatedAt := 9 }) ∧
      db'.orders = seededStore.orders ++
        [{ id := "ORD-00000002", customerName := "Ada",
           customerEmail := "ada@example.com", productId := 3,
           productName := "Keyboard", quantity := 5,
           status := .pending, createdAt := 9, updatedAt := 9 }] ∧
      invQty? db' 3 = some (8 - 5) :=
  create_order_roundtrip seededStore
    { customerName := "Ada", customerEmail := "ada@example.com",
      productId := 3, quantity := 5 } "ORD-00000002" 9
    { id := 3, name := "Keyboard", price := (7999 : Rat) / 100,
      description := some "Mechanical keyboard" }
    { id := 3, productId := 3, productName := "Keyboard", quantity := 8,
      price := (7999 : Rat) / 100 }
    (by rfl) (by rfl) (by decide)

/-- C9: a non-positive requested quantity is not rejected: when the product
and its inventory row exist and the inventory quantity is non-negative, the
sufficiency check passes, an order with that non-positive quantity is
created, and the inventory quantity changes by minus that quantity. -/
theorem create_order_nonpositive_quantity (db : Store) (req : OrderCreate)
    (oid : String) (now : Nat) (p : Product) (inv : InventoryRecord)
    (hp : lookupProduct db.products req.productId = some p)
    (hi : lookupInv db.inventory req.productId = some inv)
    (hq0 : 0 ≤ inv.quantity) (hqn : req.quantity ≤ 0) :
    ¬ inv.quantity < req.quantity ∧
    ∃ (db' : Store) (o : Order),
      create_order req oid now db = .ok (db', o) ∧
      o.quantity = req.quantity ∧
      o ∈ db'.orders ∧
      invQty? db' req.productId = some (inv.quantity - req.quantity) := by
  have hnl : ¬ inv.quantity < req.quantity := not_lt.mpr (le_trans hqn hq0)
  refine ⟨hnl, { db with
            orders := db.orders ++
              [{ id := oid, customerName := req.customerName,
                 customerEmail := req.customerEmail, productId := req.productId,
                 productName := p.name, quantity := req.quantity,
                 status := .pending, createdAt := now, updatedAt := now }]
            inventory := updateInvQty db.inventory req.productId
              (fun q => q - req.quantity) },
          { id := oid, customerName := req.customerName,
            customerEmail := req.customerEmail, productId := req.productId,
            productName := p.name, quantity := req.quantity,
            status := .pending, createdAt := now, updatedAt := now },
          ?_, rfl, ?_, ?_⟩
  · simp only [create_order, hp, hi, if_neg hnl]
  · exact List.mem_append_right _ (List.mem_singleton.mpr rfl)
  · simp only [invQty?, lookupInv_updateInvQty_self, hi, Option.map_some']

theorem create_order_nonpositive_quantity_witness :
    ¬ (8 : Int) < -2 ∧
    ∃ (db' : Store) (o : Order),
      create_order { customerName := "Ada", customerEmail := "ada@example.com",
                     productId := 3, quantity := -2 } "ORD-00000003" 4 seededStore =
        .ok (db', o) ∧
      o.quantity = -2 ∧
      o ∈ db'.orders ∧
      invQty? db' 3 = some (8 - (-2)) :=
  create_order_nonpositive_quantity seededStore
    { customerName := "Ada", customerEmail := "ada@example.com",
      productId := 3, quantity := -2 } "ORD-00000003" 4
    { id := 3, name := "Keyboard", price := (7999 : Rat) / 100,
      description := some "Mechanical keyboard" }
    { id := 3, productId := 3, productName := "Keyboard", quantity := 8,
      price := (7999 : Rat) / 100 }
    (by rfl) (by rfl) (by decide) (by decide)

/-- C8: when every product has an inventory row (the seeded 1:1 mirror), a
successful product lookup implies a successful inventory lookup, so
`create_order` can never fail with the `NotFound` inventory branch. -/
theorem inventory_branch_unreachable (db : Store)
    (hmirror : ∀ p ∈ db.products, (lookupInv db.inventory p.id).isSome = true) :
    (∀ (pid : Int) (p : Product), lookupProduct db.products pid = some p →
       (lookupInv db.inventory pid).isSome = true) ∧
    (∀ (req : OrderCreate) (oid : String) (now : Nat) (pid : Int),
       create_order req oid now db ≠
         Except.error (ApiError.notFoundInventory pid)) := by
  have hlook : ∀ (pid : Int) (p : Product), lookupProduct db.products pid = some p →
      (lookupInv db.inventory pid).isSome = true := by
    intro pid p hp
    rcases lookupProduct_mem hp with ⟨hmem, hid⟩
    have hmir := hmirror p hmem
    rwa [hid] at hmir
  refine ⟨hlook, ?_⟩
  intro req oid now pid hcontra
  cases hp : lookupProduct db.products req.productId with
  | none =>
    simp only [create_order, hp] at hcontra
    exact ApiError.noConfusion (Except.error.inj hcontra)
  | some p =>
    have hsome := hlook req.productId p hp
    cases hi : lookupInv db.inventory req.productId with
    | none =>
      rw [hi] at hsome
      simp at hsome
    | some inv =>
      by_cases hlt : inv.quantity < req.quantity
      · simp only [create_order, hp, hi, if_pos hlt] at hcontra
        exact ApiError.noConfusion (Except.error.inj hcontra)
      · simp only [create_order, hp, hi, if_neg hlt] at hcontra
        exact Except.noConfusion hcontra

theorem inventory_branch_unreachable_witness :
    (∀ (pid : Int) (p : Product), lookupProduct seededStore.products pid = some p →
       (lookupInv seededStore.inventory pid).isSome = true) ∧
    (∀ (req : OrderCreate) (oid : String) (now : Nat) (pid : Int),
       create_order req oid now seededStore ≠
         Except.error (ApiError.notFoundInventory pid)) :=
  inventory_branch_unreachable seededStore (by decide)

/-- C10: a successful `update_order_status` only rewrites the target order's
status and updatedAt fields; its other fields, every other order, the
inventory, and the products are unchanged. -/
theorem update_order_status_frame (db : Store) (oid : String) (st : OrderStatus)
    (now : Nat) (o : Order) (hf : findOrder db.orders oid = some o) :
    ∃ db' o',
      update_order_status oid st now db = .ok (db', o') ∧
      o' = { o with status := st, updatedAt := now } ∧
      db'.products = db.products ∧
      db'.inventory = db.inventory ∧
      db'.orders = updateFirstOrder db.orders oid o' ∧
      db'.orders.length = db.orders.length ∧
      (∀ q ∈ db.orders, q.id ≠ oid → q ∈ db'.orders) := by
  refine ⟨{ db with
            orders := updateFirstOrder db.orders oid
              { o with status := st, updatedAt := now } },
          { o with status := st, updatedAt := now }, ?_, rfl, rfl, rfl, rfl, ?_, ?_⟩
  · simp only [update_order_status, hf]
  · exact length_updateFirstOrder ..
  · intro q hq hne
    exact mem_updateFirstOrder_of_ne hq hne

/-- C6: `update_order_status` overwrites any current status with any new one
(no transition table), stamps updatedAt with the given clock reading, and
returns the updated order; running it twice with the same status succeeds
both times, and the second result (returned order and resulting store) is
exactly what a single call at the second clock reading produces, so only
updatedAt differs. -/
theorem update_order_status_idempotent (db : Store) (oid : String)
    (st : OrderStatus) (t1 t2 : Nat) (o : Order)
    (hf : findOrder db.orders oid = some o) :
    ∃ db1 db2,
      update_order_status oid st t1 db =
        .ok (db1, { o with status := st, updatedAt := t1 }) ∧
      update_order_status oid st t2 db1 =
        .ok (db2, { o with status := st, updatedAt := t2 }) ∧
      db2 = { db with
              orders := updateFirstOrder db.orders oid
                { o with status := st, updatedAt := t2 } } ∧
      update_order_status oid st t2 db =
        .ok ({ db with
               orders := updateFirstOrder db.orders oid
                 { o with status := st, updatedAt := t2 } },
             { o with status := st, updatedAt := t2 }) := by
  have ho : o.id = oid := (findOrder_mem hf).2
  have h1 : update_order_status oid st t1 db =
      .ok ({ db with
             orders := updateFirstOrder db.orders oid
               { o with status := st, updatedAt := t1 } },
           { o with status := st, updatedAt := t1 }) := by
    simp only [update_order_status, hf]
  have hf2 : findOrder (updateFirstOrder db.orders oid
      { o with status := st, updatedAt := t1 }) oid =
      some { o with status := st, updatedAt := t1 } :=
    findOrder_updateFirstOrder_self hf ho
  have h2 : update_order_status oid st t2
      { db with
        orders := updateFirstOrder db.orders oid
          { o with status := st, updatedAt := t1 } } =
      .ok ({ db with
             orders := updateFirstOrder (updateFirstOrder db.orders oid
               { o with status := st, updatedAt := t1 }) oid
               { o with status := st, updatedAt := t2 } },
           { o with status := st, updatedAt := t2 }) := by
    simp only [update_order_status, hf2]
  have hcollapse : updateFirstOrder (updateFirstOrder db.orders oid
      { o with status := st, updatedAt := t1 }) oid
      { o with status := st, updatedAt := t2 } =
      updateFirstOrder db.orders oid { o with status := st, updatedAt := t2 } :=
    updateFirstOrder_updateFirstOrder ho
  refine ⟨_, _, h1, h2, ?_, ?_⟩
  · rw [hcollapse]
  · simp only [update_order_status, hf]

/-- C4: cancelling an existing order succeeds whatever its status, removes
the order row, restores the inventory row of the order's product by exactly
the order's quantity when that row exists, silently skips restoration when
it does not, and — when no other order shares the id — a second cancel of
the same id fails with `NotFound` and leaves the store unchanged. -/
theorem cancel_order_spec (db : Store) (oid : String) (o : Order)
    (hf : findOrder db.orders oid = some o)
    (hu : ∀ o' ∈ eraseFirstOrder db.orders oid, o'.id ≠ oid) :
    ∃ db',
      cancel_order oid db = .ok db' ∧
      db'.orders = eraseFirstOrder db.orders oid ∧
      db'.products = db.products ∧
      (∀ inv, lookupInv db.inventory o.productId = some inv →
         invQty? db' o.productId = some (inv.quantity + o.quantity)) ∧
      (lookupInv db.inventory o.productId = none → db'.inventory = db.inventory) ∧
      cancel_order oid db' = .error (.notFoundOrder oid) ∧
      applyOp (.cancel oid) db' = db' := by
  cases hi : lookupInv db.inventory o.productId with
  | none =>
    refine ⟨{ db with orders := eraseFirstOrder db.orders oid }, ?_, rfl, rfl,
            ?_, ?_, ?_, ?_⟩
    · simp only [cancel_order, hf, hi]
    · intro inv hinv
      exact Option.noConfusion hinv
    · intro _
      rfl
    · have hnone : findOrder (eraseFirstOrder db.orders oid) oid = none :=
        findOrder_eq_none hu
      simp only [cancel_order, hnone]
    · have hnone : findOrder (eraseFirstOrder db.orders oid) oid = none :=
        findOrder_eq_none hu
      simp only [applyOp, cancel_order, hnone]
  | some r =>
    refine ⟨{ db with
              inventory := updateInvQty db.inventory o.productId
                (fun q => q + o.quantity)
              orders := eraseFirstOrder db.orders oid }, ?_, rfl, rfl,
            ?_, ?_, ?_, ?_⟩
    · simp only [cancel_order, hf, hi]
    · intro inv hinv
      obtain rfl : r = inv := Option.some.inj hinv
      simp only [invQty?, lookupInv_updateInvQty_self, hi, Option.map_some']
    · intro hcontra
      exact Option.noConfusion hcontra
    · have hnone : findOrder (eraseFirstOrder db.orders oid) oid = none :=
        findOrder_eq_none hu
      simp only [cancel_order, hnone]
    · have hnone : findOrder (eraseFirstOrder db.orders oid) oid = none :=
        findOrder_eq_none hu
      simp only [applyOp, cancel_order, hnone]

/-- A store reached by placing one order (Keyboard, quantity 5) on the
seeded database, used to exercise the theorems on concrete inputs. -/
def seededWithOrder : Store :=
  applyOp (.create { customerName := "Ada", customerEmail := "ada@example.com",
                     productId := 3, quantity := 5 } "ORD-0000000A" 1) seededStore

/-- The single order row of `seededWithOrder`. -/
def demoOrder : Order :=
  { id := "ORD-0000000A", customerName := "Ada",
    customerEmail := "ada@example.com", productId := 3,
    productName := "Keyboard", quantity := 5, status := .pending,
    createdAt := 1, updatedAt := 1 }

theorem update_order_status_idempotent_witness :
    ∃ db1 db2,
      update_order_status "ORD-0000000A" .shipped 6 seededWithOrder =
        .ok (db1, { demoOrder with status := .shipped, updatedAt := 6 }) ∧
      update_order_status "ORD-0000000A" .shipped 7 db1 =
        .ok (db2, { demoOrder with status := .shipped, updatedAt := 7 }) ∧
      db2 = { seededWithOrder with
              orders := updateFirstOrder seededWithOrder.orders "ORD-0000000A"
                { demoOrder with status := .shipped, updatedAt := 7 } } ∧
      update_order_status "ORD-0000000A" .shipped 7 seededWithOrder =
        .ok ({ seededWithOrder with
               orders := updateFirstOrder seededWithOrder.orders "ORD-0000000A"
                 { demoOrder with status := .shipped, updatedAt := 7 } },
             { demoOrder with status := .shipped, updatedAt := 7 }) :=
  update_order_status_idempotent seededWithOrder "ORD-0000000A" .shipped 6 7
    demoOrder (by decide)

theorem update_order_status_frame_witness :
    ∃ db' o',
      update_order_status "ORD-0000000A" .processing 6 seededWithOrder =
        .ok (db', o') ∧
      o' = { demoOrder with status := .processing, updatedAt := 6 } ∧
      db'.products = seededWithOrder.products ∧
      db'.inventory = seededWithOrder.inventory ∧
      db'.orders = updateFirstOrder seededWithOrder.orders "ORD-0000000A" o' ∧
      db'.orders.length = seededWithOrder.orders.length ∧
      (∀ q ∈ seededWithOrder.orders, q.id ≠ "ORD-0000000A" → q ∈ db'.orders) :=
  update_order_status_frame seededWithOrder "ORD-0000000A" .processing 6
    demoOrder (by decide)

theorem cancel_order_spec_witness :
    ∃ db',
      cancel_order "ORD-0000000A" seededWithOrder = .ok db' ∧
      db'.orders = eraseFirstOrder seededWithOrder.orders "ORD-0000000A" ∧
      db'.products = seededWithOrder.products ∧
      (∀ inv, lookupInv seededWithOrder.inventory demoOrder.productId = some inv →
         invQty? db' demoOrder.productId = some (inv.quantity + demoOrder.quantity)) ∧
      (lookupInv seededWithOrder.inventory demoOrder.productId = none →
         db'.inventory = seededWithOrder.inventory) ∧
      cancel_order "ORD-0000000A" db' = .error (.notFoundOrder "ORD-0000000A") ∧
      applyOp (.cancel "ORD-0000000A") db' = db' :=
  cancel_order_spec seededWithOrder "ORD-0000000A" demoOrder (by decide) (by decide)

/-- C1: starting from any seeded store (no orders yet), after any sequence
of order creations, status updates and cancellations, every product's
inventory quantity equals its seeded quantity minus the sum of the
quantities of the currently existing orders for that product. -/
theorem createCancel_ledger_invariant (s0 : Store) (h0 : s0.orders = [])
    (ops : List Op) : ledgerInvariant s0 (run ops s0) := by
  have hbase1 : ledgerInvariant s0 s0 := by
    intro pid
    simp only [h0, ordersSum, sub_zero]
    cases invQty? s0 pid <;> simp
  have hbase2 : ordersBacked s0 := by
    intro o ho
    rw [h0] at ho
    exact absurd ho (List.not_mem_nil o)
  exact (ledger_run s0 ops s0 hbase1 hbase2).1

/-- A demonstration trace: place two orders for the Keyboard, update one's
status, cancel one. -/
def demoOps : List Op :=
  [ .create { customerName := "Ada", customerEmail := "ada@example.com",
              productId := 3, quantity := 5 } "ORD-0000000A" 1,
    .updateStatus "ORD-0000000A" .processing 2,
    .create { customerName := "Bob", customerEmail := "bob@example.com",
              productId := 3, quantity := 2 } "ORD-0000000B" 3,
    .cancel "ORD-0000000A" ]

theorem createCancel_ledger_invariant_witness :
    invQty? (run demoOps seededStore) 3 =
      (invQty? seededStore 3).map
        (fun q0 => q0 - ordersSum (run demoOps seededStore).orders 3) :=
  createCancel_ledger_invariant seededStore rfl demoOps 3

/-- C7 (counterexample): the code accepts orders of negative quantity, and
cancelling such an order after the stock has been drained leaves the
Keyboard inventory at -9 — a reachable state violates `quantity >= 0`. -/
def c7ops : List Op :=
  [ .create { customerName := "Mallory", customerEmail := "m@evil.com",
              productId := 3, quantity := -9 } "ORD-0000000A" 1,
    .create { customerName := "Mallory", customerEmail := "m@evil.com",
              productId := 3, quantity := 17 } "ORD-0000000B" 2,
    .cancel "ORD-0000000A" ]

theorem inventory_nonneg_cex :
    invQty? (run c7ops seededStore) 3 = some (-9) ∧
    ¬ (∀ r ∈ (run c7ops seededStore).inventory, 0 ≤ r.quantity) := by decide

/-- C7 (amended): restricted to traces whose order creations all request a
positive quantity (as §3 demands of orders), every state reachable from a
seeded store with non-negative stock keeps every inventory quantity
non-negative; and `update_order_status` never changes the inventory, so
only order creation and cancellation ever touch it. -/
theorem inventory_nonneg_of_positive_orders (s0 : Store) (h0 : s0.orders = [])
    (hinv : ∀ r ∈ s0.inventory, 0 ≤ r.quantity) (ops : List Op)
    (hpos : ∀ op ∈ ops, posOp op = true) :
    (∀ r ∈ (run ops s0).inventory, 0 ≤ r.quantity) ∧
    (∀ (oid : String) (st : OrderStatus) (t : Nat) (s db' : Store) (o' : Order),
       update_order_status oid st t s = .ok (db', o') →
       db'.inventory = s.inventory) := by
  constructor
  · have h2 : ordersPos s0 := by
      intro o ho
      rw [h0] at ho
      exact absurd ho (List.not_mem_nil o)
    exact (nonneg_run ops s0 hpos hinv h2).1
  · intro oid st t s db' o' h
    cases hf : findOrder s.orders oid with
    | none =>
      rw [update_order_status, hf] at h
      exact Except.noConfusion h
    | some o =>
      rw [update_order_status, hf] at h
      have h1 := (Except.ok.inj h)
      have hdb : ({ s with
          orders := updateFirstOrder s.orders oid
            { o with status := st, updatedAt := t } } : Store) = db' :=
        congrArg Prod.fst h1
      rw [← hdb]

theorem inventory_nonneg_of_positive_orders_witness :
    (∀ r ∈ (run demoOps seededStore).inventory, 0 ≤ r.quantity) ∧
    (∀ (oid : String) (st : OrderStatus) (t : Nat) (s db' : Store) (o' : Order),
       update_order_status oid st t s = .ok (db', o') →
       db'.inventory = s.inventory) :=
  inventory_nonneg_of_positive_orders seededStore rfl (by decide) demoOps
    (by decide)

/-- Whether the endpoint returned a success. -/
def resultOk : Except ApiError (Store × Order) → Bool
  | .ok _ => true
  | .error _ => false

/-- C3 (counterexample): a request with `quantity = 0` (and a valid email)
is not rejected with `InvalidInput`: the call succeeds and an order is
created. -/
theorem create_order_nonpositive_accepted_cex :
    resultOk (create_order_endpoint
      { customerName := "Ada", customerEmail := "ada@example.com",
        productId := 1, quantity := 0 } "ORD-0000000C" 7 seededStore) = true ∧
    (create_order_endpoint
      { customerName := "Ada", customerEmail := "ada@example.com",
        productId := 1, quantity := 0 } "ORD-0000000C" 7 seededStore).toOption.map
      (fun x => x.1.orders.length) = some 1 := by decide

/-- C3 (amended): a syntactically invalid customerEmail is rejected with
`InvalidInput` before the handler body runs, so no order is created and no
inventory is touched; a non-positive quantity by itself is never rejected
(no `InvalidInput` arises from it — see the counterexample and C9). -/
theorem create_order_endpoint_invalid_email (db : Store) (req : OrderCreate)
    (oid : String) (now : Nat) (hbad : validEmail req.customerEmail = false) :
    create_order_endpoint req oid now db =
      .error (.invalidInput req.customerEmail) ∧
    ∀ (db' : Store) (o : Order), create_order_endpoint req oid now db ≠ .ok (db', o) := by
  have herr : create_order_endpoint req oid now db =
      .error (.invalidInput req.customerEmail) := by
    simp [create_order_endpoint, hbad]
  refine ⟨herr, ?_⟩
  intro db' o hcontra
  rw [herr] at hcontra
  exact Except.noConfusion hcontra

theorem create_order_endpoint_invalid_email_witness :
    create_order_endpoint
      { customerName := "Ada", customerEmail := "not-an-email",
        productId := 1, quantity := 1 } "ORD-0000000D" 8 seededStore =
      .error (.invalidInput "not-an-email") ∧
    ∀ (db' : Store) (o : Order),
      create_order_endpoint
        { customerName := "Ada", customerEmail := "not-an-email",
          productId := 1, quantity := 1 } "ORD-0000000D" 8 seededStore ≠
        .ok (db', o) :=
  create_order_endpoint_invalid_email seededStore
    { customerName := "Ada", customerEmail := "not-an-email",
      productId := 1, quantity := 1 } "ORD-0000000D" 8 (by decide)
